import Mathlib

/-!
Consensus application glue (`apps/consensus/consensus.h`).

A shallow embedding of the header that connects a Raft core to the RPC
substrate: flag validation, the server/client role test, node-id derivation,
the per-peer connection record, the periodic tick driver and the fixed-size
message envelope.

Conventions.
* `size_t` and `uint64_t` values are natural numbers; arithmetic that can wrap
  is written with an explicit reduction modulo `2 ^ 64`.
* `int` values are integers; the conversion from `uint32_t` is explicit.
* `double` values are modelled by `Dbl`: the finite values are rationals and the
  three special values are kept apart, so that the ordered comparisons have the
  IEEE-754 truth tables (every comparison with a NaN is false).
* Functions of other headers (`ERpc::to_msec`, `CityHash32`, `raft_periodic`)
  are parameters of the definitions that call them.
-/

namespace Consensus

/-! ## Machine arithmetic -/

/-- Number of values of a `size_t` / `uint64_t`. -/
def kSizeMod : Nat := 2 ^ 64

/-- The value `std::numeric_limits<size_t>::max()`. -/
def kSizeMax : Nat := 2 ^ 64 - 1

/-- Number of values of a `uint32_t`. -/
def kU32Mod : Nat := 2 ^ 32

/-- Unsigned subtraction `a - b` on `size_t`, which wraps around. -/
def size_t_sub (a b : Nat) : Nat := (a + (kSizeMod - b % kSizeMod)) % kSizeMod

/-- The conversion `static_cast<int>(h)` of a `uint32_t` to a 32-bit `int`. -/
def static_cast_int (h : Nat) : Int :=
  if h % kU32Mod < 2 ^ 31 then ((h % kU32Mod : Nat) : Int)
  else ((h % kU32Mod : Nat) : Int) - 2 ^ 32

/-- One byte of memory or of a `std::string`. -/
abbrev Byte := Fin 256

/-! ## Doubles -/

/-- A value of type `double`, as far as ordered comparison is concerned. -/
inductive Dbl where
  | nan : Dbl
  | negInf : Dbl
  | fin (q : ℚ) : Dbl
  | posInf : Dbl
  deriving DecidableEq

namespace Dbl

/-- The comparison `x < y` on doubles. -/
def lt : Dbl → Dbl → Bool
  | nan, _ => false
  | _, nan => false
  | negInf, negInf => false
  | negInf, _ => true
  | fin _, negInf => false
  | fin p, fin q => decide (p < q)
  | fin _, posInf => true
  | posInf, _ => false

/-- The comparison `x >= y` on doubles. -/
def ge : Dbl → Dbl → Bool
  | nan, _ => false
  | _, nan => false
  | _, negInf => true
  | negInf, _ => false
  | fin p, fin q => decide (q ≤ p)
  | fin _, posInf => false
  | posInf, _ => true

/-- The literal `1.0`. -/
def one : Dbl := fin 1

end Dbl

/-! ## Constants -/

def kAppNexusUdpPort : Nat := 31851
def kAppPhyPort : Nat := 0
def kAppNumaNode : Nat := 0
def kRaftBuflen : Nat := 512
def kIPStrLen : Nat := 12
def kClientMaxConcurrency : Nat := 32

/-! ## Flags -/

/-- The two command-line flags read by this header. -/
structure Flags where
  machine_id : Nat
  num_raft_servers : Nat
  deriving DecidableEq, Repr

/-- The validator registered for `num_raft_servers`; the first argument is the
flag name handed over by the flag library and is not inspected. -/
def validate_num_raft_servers (_flagname : String) (num_raft_servers : Nat) : Bool :=
  decide (num_raft_servers > 0) && decide (num_raft_servers % 2 = 1)

/-- True iff this machine is a Raft server (leader or follower). -/
def is_raft_server (flags : Flags) : Bool :=
  decide (flags.machine_id < flags.num_raft_servers)

/-! ## Records -/

/-- One peer: session number, index into the connection vector, Raft node
handle (`none` is the null pointer). -/
structure peer_connection_t where
  session_num : Int := -1
  session_idx : Nat := kSizeMax
  node : Option Nat := none
  deriving DecidableEq, Repr

/-- The part of the RPC endpoint that the tick driver reads. -/
structure Rpc where
  freq_ghz : Dbl
  deriving DecidableEq

/-- The process-wide server context; `R` is the state behind the Raft handle. -/
structure server_t (R : Type) where
  node_id : Int := -1
  raft : R
  tsc : Nat
  tickets : List Nat
  conn_vec : List peer_connection_t
  rpc : Rpc
  num_sm_resps : Nat := 0
  stat_requestvote_req_fail : Nat := 0
  stat_appendentries_req_fail : Nat := 0

/-! ## Node identity -/

/-- Node id of a machine, from the bytes of its hostname. `CityHash32 s len`
stands for the 32-bit hash of the first `len` bytes of `s`; its result is a
`uint32_t`, hence the reduction. -/
def get_raft_node_id_from_hostname (CityHash32 : List Byte → Nat → Nat)
    (hostname : List Byte) : Int :=
  let hash := CityHash32 hostname hostname.length % kU32Mod
  static_cast_int hash

/-! ## Periodic tick driver -/

/-- What the tick driver takes from other headers: the cycles-to-milliseconds
conversion of the RPC library and the tick hook of the Raft core. -/
structure TickEnv (R : Type) where
  to_msec : Nat → Dbl → Dbl
  raft_periodic : R → Int → R

/-- One call of `call_raft_periodic` with the time-stamp counter reading
`cur_tsc`. Returns the server context after the call and the deltas passed to
`raft_periodic`, in call order. -/
def call_raft_periodic {R : Type} (env : TickEnv R) (cur_tsc : Nat)
    (sv : server_t R) : server_t R × List Int :=
  let msec_since_last_nonzero := env.to_msec (size_t_sub cur_tsc sv.tsc) sv.rpc.freq_ghz
  if Dbl.lt msec_since_last_nonzero Dbl.one then
    ({ sv with raft := env.raft_periodic sv.raft 0 }, [0])
  else
    let sv1 := { sv with tsc := cur_tsc }
    ({ sv1 with raft := env.raft_periodic sv1.raft 1 }, [1])

/-- An exact-arithmetic calibration used to evaluate the driver on concrete
inputs: the quotient `cycles / (freq_ghz * 10^6)` without rounding, with the
IEEE results of a division by zero (`0 / 0` is NaN, `x / 0` is infinite for
`x > 0`), of a division by an infinity and of a NaN operand. -/
def to_msec_exact (cycles : Nat) : Dbl → Dbl
  | Dbl.fin f =>
    if f = 0 then (if cycles = 0 then Dbl.nan else Dbl.posInf)
    else Dbl.fin ((cycles : ℚ) / (f * 1000000))
  | Dbl.posInf => Dbl.fin 0
  | Dbl.negInf => Dbl.fin 0
  | Dbl.nan => Dbl.nan

/-- A Raft core that only counts the time units it was told about. -/
def countingEnv : TickEnv Int where
  to_msec := to_msec_exact
  raft_periodic := fun r delta => r + delta

/-- A server context at 2.5 GHz whose last recorded tick was at cycle 1000. -/
def sampleServer : server_t Int where
  node_id := 7
  raft := 0
  tsc := 1000
  tickets := []
  conn_vec := []
  rpc := { freq_ghz := Dbl.fin (5 / 2) }

/-- A server context whose frequency reads 0.0 GHz and whose last recorded tick
was at cycle 1000. -/
def zeroFreqServer : server_t Int where
  node_id := 7
  raft := 0
  tsc := 1000
  tickets := []
  conn_vec := []
  rpc := { freq_ghz := Dbl.fin 0 }

/-- What one call of the tick driver did, as seen from outside: the time stamp
it read, the deltas it passed to the tick hook, the recorded time stamp after
the call, and the Raft state behind the handle before and after the call. -/
structure TickRecord (R : Type) where
  cur_tsc : Nat
  hook_calls : List Int
  tsc_after : Nat
  raft_before : R
  raft_after : R

/-- A sequence of calls of `call_raft_periodic`, one per time-stamp reading. -/
def run_ticks {R : Type} (env : TickEnv R) :
    server_t R → List Nat → server_t R × List (TickRecord R)
  | sv, [] => (sv, [])
  | sv, t :: ts =>
    let r := call_raft_periodic env t sv
    let rest := run_ticks env r.1 ts
    (rest.1, { cur_tsc := t, hook_calls := r.2, tsc_after := r.1.tsc,
               raft_before := sv.raft, raft_after := r.1.raft } :: rest.2)

/-- The call reported a one-unit delta to the Raft core. -/
def TickRecord.ticked {R : Type} (r : TickRecord R) : Bool := decide (r.hook_calls = [1])

/-- The time stamp read by the most recent call that reported delta 1, or
`init` when no call did. -/
def last_tick_tsc {R : Type} : Nat → List (TickRecord R) → Nat
  | init, [] => init
  | init, r :: rs => last_tick_tsc (if r.ticked then r.cur_tsc else init) rs

/-- The time stamps read by the calls that reported delta 1, in call order. -/
def tick_times {R : Type} (recs : List (TickRecord R)) : List Nat :=
  (recs.filter TickRecord.ticked).map TickRecord.cur_tsc

/-- All the deltas passed to the tick hook by a run of calls, in order. -/
def hook_log {R : Type} (recs : List (TickRecord R)) : List Int :=
  (recs.map TickRecord.hook_calls).flatten

/-- At least one millisecond lies between the readings `t1` and `t2`. -/
def msec_apart {R : Type} (env : TickEnv R) (freq_ghz : Dbl) (t1 t2 : Nat) : Prop :=
  Dbl.ge (env.to_msec (size_t_sub t2 t1) freq_ghz) Dbl.one = true

/-- The time between the readings `t1` and `t2` is not below one millisecond:
the comparison `< 1.0` is false for it, and it is at least 1.0 unless the
conversion to milliseconds is NaN. -/
def not_below_one_ms {R : Type} (env : TickEnv R) (freq_ghz : Dbl) (t1 t2 : Nat) : Prop :=
  Dbl.lt (env.to_msec (size_t_sub t2 t1) freq_ghz) Dbl.one = false ∧
  (env.to_msec (size_t_sub t2 t1) freq_ghz ≠ Dbl.nan → msec_apart env freq_ghz t1 t2)

/-- A stand-in for the hash of another header, used to evaluate the node-id
derivation on concrete inputs: a polynomial hash of the first `len` bytes. -/
def sampleHash (s : List Byte) (len : Nat) : Nat :=
  (s.take len).foldl (fun acc b => acc * 31 + b.val) 4000000000

/-! ## Peer address text -/

/-- Decimal text of a natural number, one ASCII character per digit. -/
def decimal_text (n : Nat) : List Char :=
  if n = 0 then ['0'] else (Nat.digits 10 n).reverse.map Nat.digitChar

/-- The text `a.b.c.d:port` of an IPv4-style address with a port. -/
def ip_port_text (a b c d port : Nat) : List Char :=
  decimal_text a ++ '.' :: (decimal_text b ++ '.' :: (decimal_text c ++ '.' ::
    (decimal_text d ++ ':' :: decimal_text port)))

/-- Number of decimal digits of a natural number. -/
def decimal_width (n : Nat) : Nat := Nat.log 10 n + 1

/-! ## Message envelope -/

/-- Peer protocol handshake, sent after connecting so that the peer can
identify us. -/
structure msg_handshake_t where
  node_id : Int
  deriving DecidableEq, Repr

/-- Answer to a handshake; `leader_host` is a `char[kIPStrLen]`. -/
structure msg_handshake_response_t where
  success : Int
  node_id : Int
  leader_host : List Byte
  deriving DecidableEq, Repr

/-- Add or remove a Raft peer; `host` is a `char[kIPStrLen]`. -/
structure entry_cfg_change_t where
  node_id : Int
  host : List Byte
  deriving DecidableEq, Repr

/-- Number of `int`s of reserved padding at the end of `msg_t`. -/
def kPaddingInts : Nat := 100

/-- Modelled from the spec: the six kinds of message an envelope carries. The
header declares the union arms but no tag values and no codec. -/
inductive MsgKind where
  | handshake
  | handshake_response
  | requestvote
  | requestvote_response
  | appendentries
  | appendentries_response
  deriving DecidableEq, Repr

/-- Modelled from the spec: the six recognised kinds, in the order of the union
arms of `msg_t`. -/
def MsgKind.all : List MsgKind :=
  [MsgKind.handshake, MsgKind.handshake_response, MsgKind.requestvote,
   MsgKind.requestvote_response, MsgKind.appendentries, MsgKind.appendentries_response]

/-- Modelled from the spec: the envelope as a discriminated union with one
constructor per message kind. The two handshake payloads are the structs of
this header; the four Raft payloads are declared by the Raft library header,
which is missing, and are carried as their object bytes. -/
inductive MessageEnvelope where
  | hs (m : msg_handshake_t)
  | hsr (m : msg_handshake_response_t)
  | rv (obj : List Byte)
  | rvr (obj : List Byte)
  | ae (obj : List Byte)
  | aer (obj : List Byte)
  deriving DecidableEq, Repr

/-- Modelled from the spec: what the wire format description leaves open, the
tag value of each kind and the object sizes of the four Raft payloads, whose
declarations are missing. -/
structure EnvelopeLayout where
  tag : MsgKind → Int
  rv_size : Nat
  rvr_size : Nat
  ae_size : Nat
  aer_size : Nat

/-- Modelled from the spec: the kind of an envelope (the tag and the active
payload always agree). -/
def MessageEnvelope.kind : MessageEnvelope → MsgKind
  | MessageEnvelope.hs _ => MsgKind.handshake
  | MessageEnvelope.hsr _ => MsgKind.handshake_response
  | MessageEnvelope.rv _ => MsgKind.requestvote
  | MessageEnvelope.rvr _ => MsgKind.requestvote_response
  | MessageEnvelope.ae _ => MsgKind.appendentries
  | MessageEnvelope.aer _ => MsgKind.appendentries_response

/-- The value fits a 32-bit `int`. -/
def is_int32 (x : Int) : Bool := decide (-(2 : Int) ^ 31 ≤ x) && decide (x < (2 : Int) ^ 31)

/-- The four bytes of a 32-bit `int` in host (little-endian) order. -/
def int32_bytes (x : Int) : List Byte :=
  let u := (x % (2 : Int) ^ 32).toNat
  [⟨u % 256, Nat.mod_lt _ (by decide)⟩, ⟨u / 256 % 256, Nat.mod_lt _ (by decide)⟩,
   ⟨u / 65536 % 256, Nat.mod_lt _ (by decide)⟩, ⟨u / 16777216 % 256, Nat.mod_lt _ (by decide)⟩]

/-- The 32-bit `int` stored in the first four bytes, in host (little-endian)
order; 0 when fewer than four bytes are there. -/
def int32_of_bytes : List Byte → Int
  | b0 :: b1 :: b2 :: b3 :: _ =>
    static_cast_int (b0.val + 256 * b1.val + 65536 * b2.val + 16777216 * b3.val)
  | _ => 0

/-- Modelled from the spec: size in bytes of the payload of each kind; the
handshake sizes follow the structs of this header. -/
def payload_size (L : EnvelopeLayout) : MsgKind → Nat
  | MsgKind.handshake => 4
  | MsgKind.handshake_response => 4 + 4 + kIPStrLen
  | MsgKind.requestvote => L.rv_size
  | MsgKind.requestvote_response => L.rvr_size
  | MsgKind.appendentries => L.ae_size
  | MsgKind.appendentries_response => L.aer_size

/-- Modelled from the spec: size of the payload region, that of the largest
union arm. -/
def union_size (L : EnvelopeLayout) : Nat :=
  (MsgKind.all.map (payload_size L)).foldl max 0

/-- Modelled from the spec: the fixed envelope size, a 32-bit tag, the payload
region and the reserved padding. -/
def envelope_size (L : EnvelopeLayout) : Nat := 4 + union_size L + 4 * kPaddingInts

/-- Modelled from the spec: the bytes of the active payload. -/
def payload_bytes : MessageEnvelope → List Byte
  | MessageEnvelope.hs m => int32_bytes m.node_id
  | MessageEnvelope.hsr m => int32_bytes m.success ++ (int32_bytes m.node_id ++ m.leader_host)
  | MessageEnvelope.rv obj => obj
  | MessageEnvelope.rvr obj => obj
  | MessageEnvelope.ae obj => obj
  | MessageEnvelope.aer obj => obj

/-- Modelled from the spec: a well-formed variant has `int` fields in the range
of a 32-bit `int` and fixed-length fields of exactly their declared size. -/
def MessageEnvelope.is_valid (L : EnvelopeLayout) : MessageEnvelope → Bool
  | MessageEnvelope.hs m => is_int32 m.node_id
  | MessageEnvelope.hsr m =>
    is_int32 m.success && is_int32 m.node_id && decide (m.leader_host.length = kIPStrLen)
  | MessageEnvelope.rv obj => decide (obj.length = L.rv_size)
  | MessageEnvelope.rvr obj => decide (obj.length = L.rvr_size)
  | MessageEnvelope.ae obj => decide (obj.length = L.ae_size)
  | MessageEnvelope.aer obj => decide (obj.length = L.aer_size)

/-- Modelled from the spec: a usable layout gives the six kinds distinct tags
that fit the 32-bit tag field. -/
def EnvelopeLayout.is_valid (L : EnvelopeLayout) : Bool :=
  MsgKind.all.all (fun k => is_int32 (L.tag k)) &&
  MsgKind.all.all (fun k1 => MsgKind.all.all (fun k2 =>
    decide (L.tag k1 = L.tag k2 → k1 = k2)))

/-- Modelled from the spec: `encode`, which always succeeds: the tag, the
active payload, zero fill up to the end of the payload region, and the
reserved padding written as zero. -/
def encode (L : EnvelopeLayout) (v : MessageEnvelope) : List Byte :=
  int32_bytes (L.tag v.kind) ++ (payload_bytes v ++
    (List.replicate (union_size L - (payload_bytes v).length) 0 ++
      List.replicate (4 * kPaddingInts) 0))

/-- Modelled from the spec: the only decode error. -/
inductive DecodeError where
  | MalformedMessage
  deriving DecidableEq, Repr

/-- Modelled from the spec: the kind whose tag is `tag`, if any. -/
def kind_of_tag (L : EnvelopeLayout) (tag : Int) : Option MsgKind :=
  MsgKind.all.find? (fun k => decide (L.tag k = tag))

/-- Modelled from the spec: `decode`. A buffer shorter than the envelope or
with a tag of none of the six kinds is malformed; otherwise only the payload
bytes of the kind named by the tag are read, and the padding is ignored. -/
def decode (L : EnvelopeLayout) (buf : List Byte) : Except DecodeError MessageEnvelope :=
  if buf.length < envelope_size L then Except.error DecodeError.MalformedMessage
  else
    let body := buf.drop 4
    match kind_of_tag L (int32_of_bytes buf) with
    | none => Except.error DecodeError.MalformedMessage
    | some MsgKind.handshake => Except.ok (MessageEnvelope.hs ⟨int32_of_bytes body⟩)
    | some MsgKind.handshake_response =>
      Except.ok (MessageEnvelope.hsr ⟨int32_of_bytes body, int32_of_bytes (body.drop 4),
        (body.drop 8).take kIPStrLen⟩)
    | some MsgKind.requestvote => Except.ok (MessageEnvelope.rv (body.take L.rv_size))
    | some MsgKind.requestvote_response =>
      Except.ok (MessageEnvelope.rvr (body.take L.rvr_size))
    | some MsgKind.appendentries => Except.ok (MessageEnvelope.ae (body.take L.ae_size))
    | some MsgKind.appendentries_response =>
      Except.ok (MessageEnvelope.aer (body.take L.aer_size))

/-- A layout used to evaluate the codec on concrete inputs: tags 0 to 5 and
Raft payloads of 16, 8, 32 and 16 bytes. -/
def sampleLayout : EnvelopeLayout where
  tag := fun k => match k with
    | MsgKind.handshake => 0
    | MsgKind.handshake_response => 1
    | MsgKind.requestvote => 2
    | MsgKind.requestvote_response => 3
    | MsgKind.appendentries => 4
    | MsgKind.appendentries_response => 5
  rv_size := 16
  rvr_size := 8
  ae_size := 32
  aer_size := 16

/-! ## Theorems -/

/-! ### Doubles -/

theorem Dbl.ge_one_not_lt (x : Dbl) (h : Dbl.ge x Dbl.one = true) :
    Dbl.lt x Dbl.one = false := by
  cases x <;> simp_all [Dbl.ge, Dbl.lt, Dbl.one]

theorem Dbl.not_lt_one_ge (x : Dbl) (hx : x ≠ Dbl.nan) (h : Dbl.lt x Dbl.one = false) :
    Dbl.ge x Dbl.one = true := by
  cases x <;> simp_all [Dbl.ge, Dbl.lt, Dbl.one]

/-! ### Tick driver, one call -/

/-- C1: when the elapsed time since the recorded time stamp, converted to
milliseconds, is below 1.0, the driver calls the tick hook once with delta 0
and leaves the recorded time stamp (and everything but the Raft state behind
the handle) as it was. -/
theorem call_raft_periodic_below_one_ms {R : Type} (env : TickEnv R) (sv : server_t R)
    (cur : Nat)
    (h : Dbl.lt (env.to_msec (size_t_sub cur sv.tsc) sv.rpc.freq_ghz) Dbl.one = true) :
    (call_raft_periodic env cur sv).2 = [0] ∧
    (call_raft_periodic env cur sv).1.tsc = sv.tsc ∧
    (call_raft_periodic env cur sv).1 = { sv with raft := env.raft_periodic sv.raft 0 } := by
  simp [call_raft_periodic, h]

theorem call_raft_periodic_below_one_ms_witness :
    (call_raft_periodic countingEnv 2000 sampleServer).2 = [0] ∧
    (call_raft_periodic countingEnv 2000 sampleServer).1.tsc = sampleServer.tsc ∧
    (call_raft_periodic countingEnv 2000 sampleServer).1 =
      { sampleServer with raft := countingEnv.raft_periodic sampleServer.raft 0 } :=
  call_raft_periodic_below_one_ms countingEnv sampleServer 2000 (by
    simp [countingEnv, sampleServer, to_msec_exact, size_t_sub, kSizeMod, Dbl.lt, Dbl.one]
    norm_num)

/-- C2: when the elapsed time since the recorded time stamp, converted to
milliseconds, is at least 1.0 (the value 1.0 itself included), the driver
calls the tick hook once with delta 1, whatever the excess over 1 ms, and
records the current time stamp. -/
theorem call_raft_periodic_at_least_one_ms {R : Type} (env : TickEnv R) (sv : server_t R)
    (cur : Nat)
    (h : Dbl.ge (env.to_msec (size_t_sub cur sv.tsc) sv.rpc.freq_ghz) Dbl.one = true) :
    (call_raft_periodic env cur sv).2 = [1] ∧
    (call_raft_periodic env cur sv).1.tsc = cur ∧
    (call_raft_periodic env cur sv).1 =
      { sv with tsc := cur, raft := env.raft_periodic sv.raft 1 } := by
  have h1 := Dbl.ge_one_not_lt _ h
  simp [call_raft_periodic, h1]

theorem call_raft_periodic_at_least_one_ms_witness :
    (call_raft_periodic countingEnv 2501000 sampleServer).2 = [1] ∧
    (call_raft_periodic countingEnv 2501000 sampleServer).1.tsc = 2501000 ∧
    (call_raft_periodic countingEnv 2501000 sampleServer).1 =
      { sampleServer with tsc := 2501000,
                          raft := countingEnv.raft_periodic sampleServer.raft 1 } :=
  call_raft_periodic_at_least_one_ms countingEnv sampleServer 2501000 (by
    simp [countingEnv, sampleServer, to_msec_exact, size_t_sub, kSizeMod, Dbl.ge, Dbl.one]
    norm_num)

/-! ### Flags -/

/-- C3: the validator of `num_raft_servers` accepts exactly the positive odd
values, whatever flag name it is handed; it rejects 0 and 4 and accepts 3. -/
theorem validate_num_raft_servers_iff (flagname : String) (n : Nat) :
    (validate_num_raft_servers flagname n = true ↔ 0 < n ∧ Odd n) ∧
    validate_num_raft_servers flagname 0 = false ∧
    validate_num_raft_servers flagname 4 = false ∧
    validate_num_raft_servers flagname 3 = true := by
  refine ⟨?_, by simp [validate_num_raft_servers], by simp [validate_num_raft_servers],
    by simp [validate_num_raft_servers]⟩
  simp [validate_num_raft_servers, Nat.odd_iff]

/-- C4: a machine is a Raft server exactly when its machine id is strictly
below the number of Raft servers; every machine id at or above that number is
a client. -/
theorem is_raft_server_iff (flags : Flags) :
    (is_raft_server flags = true ↔ flags.machine_id < flags.num_raft_servers) ∧
    (is_raft_server flags = false ↔ flags.num_raft_servers ≤ flags.machine_id) := by
  simp [is_raft_server]

/-! ### Node identity -/

theorem static_cast_int_range (h : Nat) :
    -(2 : Int) ^ 31 ≤ static_cast_int h ∧ static_cast_int h < (2 : Int) ^ 31 := by
  unfold static_cast_int kU32Mod
  split <;> omega

theorem static_cast_int_emod (h : Nat) :
    static_cast_int h % (2 : Int) ^ 32 = ((h % kU32Mod : Nat) : Int) := by
  unfold static_cast_int kU32Mod
  split <;> omega

/-- C5: the node id is a function of the hostname bytes alone: the definition
takes no server context, it returns a 32-bit `int` for every non-empty
hostname (there is no error value), and two calls on equal byte strings return
equal ids, for any hash function standing for `CityHash32`. -/
theorem get_raft_node_id_from_hostname_deterministic
    (CityHash32 : List Byte → Nat → Nat) (h1 h2 : List Byte)
    (_hne : h1 ≠ []) (heq : h1 = h2) :
    get_raft_node_id_from_hostname CityHash32 h1 =
      get_raft_node_id_from_hostname CityHash32 h2 ∧
    ∃ id : Int, get_raft_node_id_from_hostname CityHash32 h1 = id ∧
      -(2 : Int) ^ 31 ≤ id ∧ id < (2 : Int) ^ 31 := by
  subst heq
  exact ⟨rfl, _, rfl, static_cast_int_range _⟩

theorem get_raft_node_id_from_hostname_deterministic_witness :
    get_raft_node_id_from_hostname sampleHash [104, 49] =
      get_raft_node_id_from_hostname sampleHash [104, 49] ∧
    ∃ id : Int, get_raft_node_id_from_hostname sampleHash [104, 49] = id ∧
      -(2 : Int) ^ 31 ≤ id ∧ id < (2 : Int) ^ 31 :=
  get_raft_node_id_from_hostname_deterministic sampleHash [104, 49] [104, 49]
    (by decide) rfl

/-- C6: the node id is the 32-bit hash of all the hostname bytes read as a
signed 32-bit integer: it is the hash `h` when `h < 2^31` and `h - 2^32`
otherwise, it lies in `[-2^31, 2^31)`, it is congruent to `h` modulo `2^32`,
and two hostnames get the same id exactly when their 32-bit hashes agree. -/
theorem get_raft_node_id_from_hostname_value
    (CityHash32 : List Byte → Nat → Nat) (hostname other : List Byte) :
    let h : Nat := CityHash32 hostname hostname.length % 2 ^ 32
    let h2 : Nat := CityHash32 other other.length % 2 ^ 32
    get_raft_node_id_from_hostname CityHash32 hostname
        = (if h < 2 ^ 31 then (h : Int) else (h : Int) - 2 ^ 32) ∧
    -(2 : Int) ^ 31 ≤ get_raft_node_id_from_hostname CityHash32 hostname ∧
    get_raft_node_id_from_hostname CityHash32 hostname < (2 : Int) ^ 31 ∧
    get_raft_node_id_from_hostname CityHash32 hostname % (2 : Int) ^ 32 = (h : Int) ∧
    (get_raft_node_id_from_hostname CityHash32 hostname
        = get_raft_node_id_from_hostname CityHash32 other ↔ h = h2) := by
  intro h h2
  have hh : h < 2 ^ 32 := Nat.mod_lt _ (by norm_num)
  have hh2 : h2 < 2 ^ 32 := Nat.mod_lt _ (by norm_num)
  have e1 : get_raft_node_id_from_hostname CityHash32 hostname = static_cast_int h := rfl
  have e2 : get_raft_node_id_from_hostname CityHash32 other = static_cast_int h2 := rfl
  have m1 : h % kU32Mod = h := Nat.mod_eq_of_lt hh
  have m2 : h2 % kU32Mod = h2 := Nat.mod_eq_of_lt hh2
  have r1 := static_cast_int_range h
  have d1 := static_cast_int_emod h
  have d2 := static_cast_int_emod h2
  rw [m1] at d1
  rw [m2] at d2
  refine ⟨?_, by rw [e1]; exact r1.1, by rw [e1]; exact r1.2, by rw [e1]; exact d1, ?_⟩
  · rw [e1]
    unfold static_cast_int
    rw [m1]
  · rw [e1, e2]
    constructor
    · intro heq
      rw [heq, d2] at d1
      exact_mod_cast d1.symm
    · intro heq
      rw [heq]

/-! ### Peer connections -/

/-- C9: a default-constructed peer connection has session number -1, the
largest `size_t` as its index, which lies outside every connection vector,
and a null node handle. -/
theorem peer_connection_default (conn_vec : List peer_connection_t)
    (hlen : conn_vec.length < 2 ^ 64) :
    ({} : peer_connection_t).session_num = -1 ∧
    ({} : peer_connection_t).session_idx = 2 ^ 64 - 1 ∧
    ({} : peer_connection_t).node = none ∧
    conn_vec.get? ({} : peer_connection_t).session_idx = none := by
  refine ⟨rfl, rfl, rfl, ?_⟩
  apply List.get?_eq_none.mpr
  show conn_vec.length ≤ 2 ^ 64 - 1
  omega

theorem peer_connection_default_witness :
    ({} : peer_connection_t).session_num = -1 ∧
    ({} : peer_connection_t).session_idx = 2 ^ 64 - 1 ∧
    ({} : peer_connection_t).node = none ∧
    [({} : peer_connection_t), { session_num := 3, session_idx := 1 }].get?
      ({} : peer_connection_t).session_idx = none :=
  peer_connection_default [{}, { session_num := 3, session_idx := 1 }] (by simp)

/-! ### Tick driver, sequences of calls -/

theorem call_raft_periodic_cases {R : Type} (env : TickEnv R) (sv : server_t R) (cur : Nat) :
    (Dbl.lt (env.to_msec (size_t_sub cur sv.tsc) sv.rpc.freq_ghz) Dbl.one = true ∧
      (call_raft_periodic env cur sv).2 = [0] ∧
      (call_raft_periodic env cur sv).1.tsc = sv.tsc ∧
      (call_raft_periodic env cur sv).1.rpc = sv.rpc ∧
      (call_raft_periodic env cur sv).1.raft = env.raft_periodic sv.raft 0) ∨
    (Dbl.lt (env.to_msec (size_t_sub cur sv.tsc) sv.rpc.freq_ghz) Dbl.one = false ∧
      (call_raft_periodic env cur sv).2 = [1] ∧
      (call_raft_periodic env cur sv).1.tsc = cur ∧
      (call_raft_periodic env cur sv).1.rpc = sv.rpc ∧
      (call_raft_periodic env cur sv).1.raft = env.raft_periodic sv.raft 1) := by
  cases h : Dbl.lt (env.to_msec (size_t_sub cur sv.tsc) sv.rpc.freq_ghz) Dbl.one
  · right
    simp [call_raft_periodic, h]
  · left
    simp [call_raft_periodic, h]

theorem run_ticks_invariant {R : Type} (env : TickEnv R) (ts : List Nat) :
    ∀ sv : server_t R,
      ((run_ticks env sv ts).2.map TickRecord.cur_tsc = ts ∧
       (∀ r ∈ (run_ticks env sv ts).2,
          (r.hook_calls = [0] ∧ r.raft_after = env.raft_periodic r.raft_before 0) ∨
          (r.hook_calls = [1] ∧ r.raft_after = env.raft_periodic r.raft_before 1)) ∧
       (∀ k r, (run_ticks env sv ts).2.get? k = some r →
          r.tsc_after = last_tick_tsc sv.tsc ((run_ticks env sv ts).2.take (k + 1)) ∧
          r.raft_before =
            (hook_log ((run_ticks env sv ts).2.take k)).foldl env.raft_periodic sv.raft) ∧
       (run_ticks env sv ts).1.tsc = last_tick_tsc sv.tsc (run_ticks env sv ts).2 ∧
       (run_ticks env sv ts).1.raft =
          (hook_log (run_ticks env sv ts).2).foldl env.raft_periodic sv.raft ∧
       List.Chain (not_below_one_ms env sv.rpc.freq_ghz) sv.tsc
          (tick_times (run_ticks env sv ts).2)) := by
  induction ts with
  | nil =>
    intro sv
    simp [run_ticks, last_tick_tsc, tick_times, hook_log]
  | cons t ts ih =>
    intro sv
    rcases call_raft_periodic_cases env sv t with
      ⟨hlt, hc, htsc, hrpc, hraft⟩ | ⟨hlt, hc, htsc, hrpc, hraft⟩
    · obtain ⟨i1, i2, i3, i4, i5, i6⟩ := ih (call_raft_periodic env t sv).1
      rw [htsc] at i3 i4 i6
      rw [hrpc] at i6
      rw [hraft] at i3 i5
      refine ⟨?_, ?_, ?_, ?_, ?_, ?_⟩
      · simp [run_ticks, i1]
      · intro r hr
        simp only [run_ticks, List.mem_cons] at hr
        rcases hr with rfl | hr
        · left; exact ⟨hc, hraft⟩
        · exact i2 r hr
      · intro k r hk
        cases k with
        | zero =>
          simp only [run_ticks, List.get?_cons_zero, Option.some.injEq] at hk
          subst hk
          simp [run_ticks, last_tick_tsc, TickRecord.ticked, hc, htsc, hook_log]
        | succ k =>
          simp only [run_ticks, List.get?_cons_succ] at hk
          obtain ⟨j1, j2⟩ := i3 k r hk
          simp [run_ticks, last_tick_tsc, TickRecord.ticked, hc, j1, j2, hook_log]
      · simp [run_ticks, last_tick_tsc, TickRecord.ticked, hc, i4]
      · simp only [hook_log] at i5
        simp [run_ticks, hook_log, hc, i5]
      · simpa [run_ticks, tick_times, TickRecord.ticked, hc] using i6
    · obtain ⟨i1, i2, i3, i4, i5, i6⟩ := ih (call_raft_periodic env t sv).1
      rw [htsc] at i3 i4 i6
      rw [hrpc] at i6
      rw [hraft] at i3 i5
      refine ⟨?_, ?_, ?_, ?_, ?_, ?_⟩
      · simp [run_ticks, i1]
      · intro r hr
        simp only [run_ticks, List.mem_cons] at hr
        rcases hr with rfl | hr
        · right; exact ⟨hc, hraft⟩
        · exact i2 r hr
      · intro k r hk
        cases k with
        | zero =>
          simp only [run_ticks, List.get?_cons_zero, Option.some.injEq] at hk
          subst hk
          simp [run_ticks, last_tick_tsc, TickRecord.ticked, hc, htsc, hook_log]
        | succ k =>
          simp only [run_ticks, List.get?_cons_succ] at hk
          obtain ⟨j1, j2⟩ := i3 k r hk
          simp [run_ticks, last_tick_tsc, TickRecord.ticked, hc, j1, j2, hook_log]
      · simp [run_ticks, last_tick_tsc, TickRecord.ticked, hc, i4]
      · simp only [hook_log] at i5
        simp [run_ticks, hook_log, hc, i5]
      · have hge : not_below_one_ms env sv.rpc.freq_ghz sv.tsc t :=
          ⟨hlt, fun hn => Dbl.not_lt_one_ge _ hn hlt⟩
        simpa [run_ticks, tick_times, TickRecord.ticked, hc] using ⟨hge, i6⟩

/-- C10, refuted as stated: at a frequency reading of 0.0 GHz two calls that
both read the recorded time stamp 1000 both report delta 1, although the
elapsed time between them, 0 cycles, converts to NaN and is not at least
1.0 ms. -/
theorem call_raft_periodic_throttling_nan_counterexample :
    (run_ticks countingEnv zeroFreqServer [1000, 1000]).2.map TickRecord.hook_calls
      = [[1], [1]] ∧
    tick_times (run_ticks countingEnv zeroFreqServer [1000, 1000]).2 = [1000, 1000] ∧
    countingEnv.to_msec (size_t_sub 1000 1000) zeroFreqServer.rpc.freq_ghz = Dbl.nan ∧
    ¬ List.Chain' (msec_apart countingEnv zeroFreqServer.rpc.freq_ghz)
      (tick_times (run_ticks countingEnv zeroFreqServer [1000, 1000]).2) := by
  have h0 : size_t_sub 1000 1000 = 0 := by decide
  have hn : to_msec_exact 0 (Dbl.fin 0) = Dbl.nan := by simp [to_msec_exact]
  have ht : tick_times (run_ticks countingEnv zeroFreqServer [1000, 1000]).2
      = [1000, 1000] := by
    simp [run_ticks, call_raft_periodic, countingEnv, zeroFreqServer, h0, hn, Dbl.lt,
      tick_times, TickRecord.ticked]
  refine ⟨?_, ht, ?_, ?_⟩
  · simp [run_ticks, call_raft_periodic, countingEnv, zeroFreqServer, h0, hn, Dbl.lt]
  · simp [countingEnv, zeroFreqServer, h0, hn]
  · rw [ht]
    simp [msec_apart, countingEnv, zeroFreqServer, h0, hn, Dbl.ge]

/-- C10, amended: throttling invariant of the tick driver. In a sequence of
calls reading the time stamps `ts`, every call invokes the tick hook exactly
once, with delta 0 or 1: the Raft state after the call is the hook applied once
to the state before it, and the state before each call and at the end is the
hook folded over the deltas of the earlier calls. After every call the recorded
time stamp is the one read by the most recent call that reported delta 1 (the
initial one if there was none). Between the initial recorded time stamp and the
first delta-1 call, and between any two consecutive delta-1 calls, the elapsed
time (difference modulo `2^64`, converted to milliseconds) is not below 1.0:
the comparison `< 1.0` is false for it, and it is at least 1.0 whenever the
conversion yields a number rather than NaN. -/
theorem call_raft_periodic_throttling {R : Type} (env : TickEnv R) (sv : server_t R)
    (ts : List Nat) :
    (run_ticks env sv ts).2.map TickRecord.cur_tsc = ts ∧
    (∀ r ∈ (run_ticks env sv ts).2,
      (r.hook_calls = [0] ∧ r.raft_after = env.raft_periodic r.raft_before 0) ∨
      (r.hook_calls = [1] ∧ r.raft_after = env.raft_periodic r.raft_before 1)) ∧
    (∀ k r, (run_ticks env sv ts).2.get? k = some r →
      r.tsc_after = last_tick_tsc sv.tsc ((run_ticks env sv ts).2.take (k + 1)) ∧
      r.raft_before =
        (hook_log ((run_ticks env sv ts).2.take k)).foldl env.raft_periodic sv.raft) ∧
    (run_ticks env sv ts).1.tsc = last_tick_tsc sv.tsc (run_ticks env sv ts).2 ∧
    (run_ticks env sv ts).1.raft =
      (hook_log (run_ticks env sv ts).2).foldl env.raft_periodic sv.raft ∧
    List.Chain (not_below_one_ms env sv.rpc.freq_ghz) sv.tsc
      (tick_times (run_ticks env sv ts).2) ∧
    List.Chain' (not_below_one_ms env sv.rpc.freq_ghz)
      (tick_times (run_ticks env sv ts).2) := by
  obtain ⟨i1, i2, i3, i4, i5, i6⟩ := run_ticks_invariant env ts sv
  have i7 : List.Chain' (not_below_one_ms env sv.rpc.freq_ghz)
      (sv.tsc :: tick_times (run_ticks env sv ts).2) := i6
  exact ⟨i1, i2, i3, i4, i5, i6, i7.tail⟩

theorem call_raft_periodic_throttling_witness :
    (run_ticks countingEnv sampleServer [2000, 2501000, 2600000, 5001000, 9000000]).2.map
      TickRecord.cur_tsc = [2000, 2501000, 2600000, 5001000, 9000000] ∧
    (∀ r ∈ (run_ticks countingEnv sampleServer [2000, 2501000, 2600000, 5001000, 9000000]).2,
      (r.hook_calls = [0] ∧ r.raft_after = countingEnv.raft_periodic r.raft_before 0) ∨
      (r.hook_calls = [1] ∧ r.raft_after = countingEnv.raft_periodic r.raft_before 1)) ∧
    (∀ k r, (run_ticks countingEnv sampleServer
        [2000, 2501000, 2600000, 5001000, 9000000]).2.get? k = some r →
      r.tsc_after = last_tick_tsc sampleServer.tsc
        ((run_ticks countingEnv sampleServer
          [2000, 2501000, 2600000, 5001000, 9000000]).2.take (k + 1)) ∧
      r.raft_before =
        (hook_log ((run_ticks countingEnv sampleServer
          [2000, 2501000, 2600000, 5001000, 9000000]).2.take k)).foldl
            countingEnv.raft_periodic sampleServer.raft) ∧
    (run_ticks countingEnv sampleServer [2000, 2501000, 2600000, 5001000, 9000000]).1.tsc =
      last_tick_tsc sampleServer.tsc
        (run_ticks countingEnv sampleServer [2000, 2501000, 2600000, 5001000, 9000000]).2 ∧
    (run_ticks countingEnv sampleServer [2000, 2501000, 2600000, 5001000, 9000000]).1.raft =
      (hook_log (run_ticks countingEnv sampleServer
        [2000, 2501000, 2600000, 5001000, 9000000]).2).foldl
          countingEnv.raft_periodic sampleServer.raft ∧
    List.Chain (not_below_one_ms countingEnv sampleServer.rpc.freq_ghz) sampleServer.tsc
      (tick_times (run_ticks countingEnv sampleServer
        [2000, 2501000, 2600000, 5001000, 9000000]).2) ∧
    List.Chain' (not_below_one_ms countingEnv sampleServer.rpc.freq_ghz)
      (tick_times (run_ticks countingEnv sampleServer
        [2000, 2501000, 2600000, 5001000, 9000000]).2) :=
  call_raft_periodic_throttling countingEnv sampleServer
    [2000, 2501000, 2600000, 5001000, 9000000]

/-- A calibration result that is NaN sends the driver down the delta-1 branch:
the comparison `< 1.0` is false for it. -/
theorem call_raft_periodic_nan {R : Type} (env : TickEnv R) (sv : server_t R) (cur : Nat)
    (h : env.to_msec (size_t_sub cur sv.tsc) sv.rpc.freq_ghz = Dbl.nan) :
    (call_raft_periodic env cur sv).2 = [1] ∧ (call_raft_periodic env cur sv).1.tsc = cur := by
  simp [call_raft_periodic, h, Dbl.lt]

/-- With a calibration that never yields NaN at the server's frequency, any two
consecutive delta-1 calls are at least 1.0 ms apart. -/
theorem run_ticks_msec_apart {R : Type} (env : TickEnv R) (sv : server_t R) (ts : List Nat)
    (hnan : ∀ c, env.to_msec c sv.rpc.freq_ghz ≠ Dbl.nan) :
    List.Chain (msec_apart env sv.rpc.freq_ghz) sv.tsc
      (tick_times (run_ticks env sv ts).2) := by
  have h := (run_ticks_invariant env ts sv).2.2.2.2.2
  exact List.Chain.imp (fun a b hab => hab.2 (hnan _)) h

/-- The sample run: a call 0.4 µs after the recorded tick, one exactly 1 ms
after it, one 0.04 ms later, one exactly 1 ms after the second, one later. -/
theorem run_ticks_sample :
    (run_ticks countingEnv sampleServer [2000, 2501000, 2600000, 5001000, 9000000]).2 =
      [⟨2000, [0], 1000, 0, 0⟩, ⟨2501000, [1], 2501000, 0, 1⟩,
       ⟨2600000, [0], 2501000, 1, 1⟩, ⟨5001000, [1], 5001000, 1, 2⟩,
       ⟨9000000, [1], 9000000, 2, 3⟩] ∧
    (run_ticks countingEnv sampleServer [2000, 2501000, 2600000, 5001000, 9000000]).1.raft
      = 3 := by
  simp [run_ticks, call_raft_periodic, countingEnv, sampleServer, to_msec_exact, size_t_sub,
    kSizeMod, Dbl.lt, Dbl.one]
  norm_num

/-! ### Peer address text -/

theorem decimal_text_length (n : Nat) : (decimal_text n).length = decimal_width n := by
  unfold decimal_text decimal_width
  split
  · next h => subst h; simp
  · next h => simp [Nat.digits_len 10 n (by norm_num) h]

theorem ip_port_text_length (a b c d port : Nat) :
    (ip_port_text a b c d port).length =
      decimal_width a + decimal_width b + decimal_width c + decimal_width d
        + decimal_width port + 4 := by
  simp only [ip_port_text, List.length_append, List.length_cons, decimal_text_length]
  omega

theorem decimal_width_pos (n : Nat) : 1 ≤ decimal_width n := by
  unfold decimal_width; omega

theorem decimal_width_le (n k : Nat) (h : n < 10 ^ (k + 1)) : decimal_width n ≤ k + 1 := by
  unfold decimal_width
  rcases Nat.eq_zero_or_pos n with h0 | h0
  · subst h0; simp
  · have := Nat.log_lt_of_lt_pow (b := 10) (by omega : n ≠ 0) h
    omega

theorem decimal_width_eq (n k : Nat) (h1 : 10 ^ k ≤ n) (h2 : n < 10 ^ (k + 1)) :
    decimal_width n = k + 1 := by
  unfold decimal_width
  rw [Nat.log_eq_of_pow_le_of_lt_pow h1 h2]

/-- C7, refuted as stated: the address 255.255.255.255 with port 65535 has
octets and port in range, its text takes 21 bytes, and 21 bytes do not fit in
a field of `kIPStrLen` bytes. -/
theorem ip_port_text_overflows :
    (255 ≤ 255 ∧ 65535 ≤ 65535) ∧
    (ip_port_text 255 255 255 255 65535).length = 21 ∧
    ¬ (ip_port_text 255 255 255 255 65535).length ≤ kIPStrLen := by
  have h : (ip_port_text 255 255 255 255 65535).length = 21 := by
    rw [ip_port_text_length, decimal_width_eq 255 2 (by norm_num) (by norm_num),
      decimal_width_eq 65535 4 (by norm_num) (by norm_num)]
  refine ⟨⟨le_refl _, le_refl _⟩, h, ?_⟩
  rw [h]
  decide

/-- C7, amended: the address fields hold `kIPStrLen = 12` bytes. For octets in
0..255 and a port in 0..65535 the text `a.b.c.d:port` takes between 9 and 21
bytes, namely the decimal digits of the five numbers and four separators; it
fits in `kIPStrLen` bytes exactly when the five numbers have at most 8 digits
in total, which is the case whenever every octet is below 10 and the port is
below 10000. -/
theorem ip_port_text_fits_iff (a b c d port : Nat)
    (ha : a ≤ 255) (hb : b ≤ 255) (hc : c ≤ 255) (hd : d ≤ 255) (hp : port ≤ 65535) :
    (ip_port_text a b c d port).length =
      decimal_width a + decimal_width b + decimal_width c + decimal_width d
        + decimal_width port + 4 ∧
    9 ≤ (ip_port_text a b c d port).length ∧
    (ip_port_text a b c d port).length ≤ 21 ∧
    ((ip_port_text a b c d port).length ≤ kIPStrLen ↔
      decimal_width a + decimal_width b + decimal_width c + decimal_width d
        + decimal_width port ≤ 8) ∧
    (a < 10 → b < 10 → c < 10 → d < 10 → port < 10000 →
      (ip_port_text a b c d port).length ≤ kIPStrLen) := by
  have la := decimal_width_pos a
  have lb := decimal_width_pos b
  have lc := decimal_width_pos c
  have ld := decimal_width_pos d
  have lp := decimal_width_pos port
  have ua := decimal_width_le a 2 (by omega)
  have ub := decimal_width_le b 2 (by omega)
  have uc := decimal_width_le c 2 (by omega)
  have ud := decimal_width_le d 2 (by omega)
  have up := decimal_width_le port 4 (by omega)
  have hk : kIPStrLen = 12 := rfl
  rw [ip_port_text_length, hk]
  refine ⟨rfl, by omega, by omega, by omega, ?_⟩
  intro h1 h2 h3 h4 h5
  have va := decimal_width_le a 0 (by omega)
  have vb := decimal_width_le b 0 (by omega)
  have vc := decimal_width_le c 0 (by omega)
  have vd := decimal_width_le d 0 (by omega)
  have vp := decimal_width_le port 3 (by omega)
  omega

theorem ip_port_text_fits_iff_witness :
    (ip_port_text 9 0 0 1 8080).length =
      decimal_width 9 + decimal_width 0 + decimal_width 0 + decimal_width 1
        + decimal_width 8080 + 4 ∧
    9 ≤ (ip_port_text 9 0 0 1 8080).length ∧
    (ip_port_text 9 0 0 1 8080).length ≤ 21 ∧
    ((ip_port_text 9 0 0 1 8080).length ≤ kIPStrLen ↔
      decimal_width 9 + decimal_width 0 + decimal_width 0 + decimal_width 1
        + decimal_width 8080 ≤ 8) ∧
    (9 < 10 → 0 < 10 → 0 < 10 → 1 < 10 → 8080 < 10000 →
      (ip_port_text 9 0 0 1 8080).length ≤ kIPStrLen) :=
  ip_port_text_fits_iff 9 0 0 1 8080 (by decide) (by decide) (by decide) (by decide)
    (by decide)

/-- The sample address texts, spelled out. -/
theorem ip_port_text_samples :
    ip_port_text 9 0 0 1 8080 = "9.0.0.1:8080".toList ∧
    ip_port_text 255 255 255 255 65535 = "255.255.255.255:65535".toList := by
  constructor <;> norm_num [ip_port_text, decimal_text, Nat.digitChar]

/-! ### Message envelope -/

theorem int32_bytes_length (x : Int) : (int32_bytes x).length = 4 := by
  simp [int32_bytes]

theorem int32_of_bytes_int32_bytes (x : Int) (hx : is_int32 x = true) (rest : List Byte) :
    int32_of_bytes (int32_bytes x ++ rest) = x := by
  simp only [is_int32, Bool.and_eq_true, decide_eq_true_eq] at hx
  obtain ⟨h1, h2⟩ := hx
  simp only [int32_bytes, List.cons_append, List.nil_append, int32_of_bytes, static_cast_int,
    kU32Mod]
  have hu : (((x % (2 : Int) ^ 32).toNat : Nat) : Int) = x % (2 : Int) ^ 32 :=
    Int.toNat_of_nonneg (Int.emod_nonneg _ (by norm_num))
  generalize (x % (2 : Int) ^ 32).toNat = u at hu ⊢
  have hlt : (u : Int) < 2 ^ 32 := by rw [hu]; exact Int.emod_lt_of_pos _ (by norm_num)
  split <;> omega

theorem payload_bytes_length (L : EnvelopeLayout) (v : MessageEnvelope)
    (hv : v.is_valid L = true) : (payload_bytes v).length = payload_size L v.kind := by
  cases v <;>
    simp_all [MessageEnvelope.is_valid, payload_bytes, payload_size, MessageEnvelope.kind,
      int32_bytes_length]
  omega

theorem payload_size_le_union_size (L : EnvelopeLayout) (k : MsgKind) :
    payload_size L k ≤ union_size L := by
  cases k <;>
    simp only [union_size, MsgKind.all, List.map, List.foldl, payload_size] <;> omega

theorem encode_length (L : EnvelopeLayout) (v : MessageEnvelope) (hv : v.is_valid L = true) :
    (encode L v).length = envelope_size L := by
  have h1 := payload_bytes_length L v hv
  have h2 := payload_size_le_union_size L v.kind
  simp only [encode, List.length_append, int32_bytes_length, List.length_replicate,
    envelope_size]
  omega

theorem kind_of_tag_tag (L : EnvelopeLayout) (hL : L.is_valid = true) (k : MsgKind) :
    kind_of_tag L (L.tag k) = some k := by
  simp only [EnvelopeLayout.is_valid, Bool.and_eq_true, List.all_eq_true,
    decide_eq_true_eq] at hL
  have hinj : ∀ k1 k2, L.tag k1 = L.tag k2 → k1 = k2 := fun k1 k2 =>
    hL.2 k1 (by cases k1 <;> simp [MsgKind.all]) k2 (by cases k2 <;> simp [MsgKind.all])
  have hne : ∀ k1 k2, k1 ≠ k2 → ¬ L.tag k1 = L.tag k2 := fun k1 k2 h1 h2 => h1 (hinj k1 k2 h2)
  cases k <;>
    simp [kind_of_tag, MsgKind.all, List.find?, hne]

theorem layout_tag_int32 (L : EnvelopeLayout) (hL : L.is_valid = true) (k : MsgKind) :
    is_int32 (L.tag k) = true := by
  simp only [EnvelopeLayout.is_valid, Bool.and_eq_true, List.all_eq_true] at hL
  exact hL.1 k (by cases k <;> simp [MsgKind.all])

/-- C8: encode-then-decode round trip of the message envelope. For a layout
with six distinct 32-bit tags and every well-formed variant of each of the six
kinds, decoding the encoded envelope succeeds and returns the variant. -/
theorem decode_encode (L : EnvelopeLayout) (hL : L.is_valid = true) (v : MessageEnvelope)
    (hv : v.is_valid L = true) : decode L (encode L v) = Except.ok v := by
  have hlen : ¬ (encode L v).length < envelope_size L := by
    rw [encode_length L v hv]; omega
  have htag : kind_of_tag L (int32_of_bytes (encode L v)) = some v.kind := by
    unfold encode
    rw [int32_of_bytes_int32_bytes _ (layout_tag_int32 L hL _), kind_of_tag_tag L hL]
  have hbody : (encode L v).drop 4 = payload_bytes v ++
      (List.replicate (union_size L - (payload_bytes v).length) 0 ++
        List.replicate (4 * kPaddingInts) 0) :=
    List.drop_left' (int32_bytes_length _)
  unfold decode
  rw [if_neg hlen]
  simp only [htag, hbody]
  cases v with
  | hs m =>
    simp only [MessageEnvelope.is_valid] at hv
    simp only [MessageEnvelope.kind, payload_bytes]
    rw [int32_of_bytes_int32_bytes _ hv]
  | hsr m =>
    simp only [MessageEnvelope.is_valid, Bool.and_eq_true, decide_eq_true_eq] at hv
    obtain ⟨⟨h1, h2⟩, h3⟩ := hv
    simp only [MessageEnvelope.kind, payload_bytes, List.append_assoc]
    rw [int32_of_bytes_int32_bytes _ h1, List.drop_left' (int32_bytes_length _),
      int32_of_bytes_int32_bytes _ h2]
    have h8 : List.drop 8 (int32_bytes m.success ++ (int32_bytes m.node_id ++
        (m.leader_host ++ (List.replicate (union_size L - ((int32_bytes m.success).length +
          ((int32_bytes m.node_id).length + m.leader_host.length))) 0 ++
          List.replicate (4 * kPaddingInts) 0)))) = m.leader_host ++
        (List.replicate (union_size L - ((int32_bytes m.success).length +
          ((int32_bytes m.node_id).length + m.leader_host.length))) 0 ++
          List.replicate (4 * kPaddingInts) 0) := by
      rw [← List.append_assoc]
      exact List.drop_left' (by simp [int32_bytes_length])
    simp only [List.length_append] at h8 ⊢
    rw [h8, List.take_left' h3]
  | rv obj =>
    simp only [MessageEnvelope.is_valid, decide_eq_true_eq] at hv
    simp only [MessageEnvelope.kind, payload_bytes]
    rw [List.take_left' hv]
  | rvr obj =>
    simp only [MessageEnvelope.is_valid, decide_eq_true_eq] at hv
    simp only [MessageEnvelope.kind, payload_bytes]
    rw [List.take_left' hv]
  | ae obj =>
    simp only [MessageEnvelope.is_valid, decide_eq_true_eq] at hv
    simp only [MessageEnvelope.kind, payload_bytes]
    rw [List.take_left' hv]
  | aer obj =>
    simp only [MessageEnvelope.is_valid, decide_eq_true_eq] at hv
    simp only [MessageEnvelope.kind, payload_bytes]
    rw [List.take_left' hv]

theorem decode_encode_witness :
    decode sampleLayout (encode sampleLayout
      (MessageEnvelope.hsr ⟨0, -7, [49, 48, 46, 48, 46, 48, 46, 49, 0, 0, 0, 0]⟩)) =
    Except.ok (MessageEnvelope.hsr ⟨0, -7, [49, 48, 46, 48, 46, 48, 46, 49, 0, 0, 0, 0]⟩) :=
  decode_encode sampleLayout (by decide)
    (MessageEnvelope.hsr ⟨0, -7, [49, 48, 46, 48, 46, 48, 46, 49, 0, 0, 0, 0]⟩) (by decide)

/-- The sample envelope on the wire: 436 bytes, tag 1, the two `int`s, the
twelve host bytes, then zeros. -/
theorem encode_sample :
    (encode sampleLayout
      (MessageEnvelope.hsr ⟨0, -7, [49, 48, 46, 48, 46, 48, 46, 49, 0, 0, 0, 0]⟩)).take 24 =
      [1, 0, 0, 0, 0, 0, 0, 0, 249, 255, 255, 255, 49, 48, 46, 48, 46, 48, 46, 49, 0, 0, 0, 0] ∧
    (encode sampleLayout
      (MessageEnvelope.hsr ⟨0, -7, [49, 48, 46, 48, 46, 48, 46, 49, 0, 0, 0, 0]⟩)).length = 436 ∧
    envelope_size sampleLayout = 436 := by
  refine ⟨by decide, ?_, by decide⟩
  rw [encode_length _ _ (by decide)]
  decide

/-- A buffer shorter than the envelope is malformed. -/
theorem decode_short (L : EnvelopeLayout) (buf : List Byte)
    (h : buf.length < envelope_size L) :
    decode L buf = Except.error DecodeError.MalformedMessage := by
  simp [decode, h]

/-- A buffer whose tag is that of none of the six kinds is malformed. -/
theorem decode_unknown_tag (L : EnvelopeLayout) (buf : List Byte)
    (h : kind_of_tag L (int32_of_bytes buf) = none) :
    decode L buf = Except.error DecodeError.MalformedMessage := by
  unfold decode
  split
  · rfl
  · simp only [h]

end Consensus
